import Mathlib

/-!
Verification of the Gnex AJAX form handler (src/unnamed/part_000, with the
variant src/src/js/gnex.js agreeing on all modelled parts).

The development shallowly embeds the submission controller, the SSE stream
parser, the upload-progress proxy, the response classifier and the response
cache as executable Lean functions over explicit state, and proves the
specification claims about them.  Host built-ins used by the code
(fetch, JSON.parse, Math.round, String.prototype.trim and split) are
modelled for exactly the fragment the code exercises.
-/

namespace Gnex

/-! ## Character-list utilities modelling JavaScript string operations.
Strings are handled as lists of characters so that every operation is a
structurally recursive, kernel-evaluable function. -/

/-- Whitespace recognised by String.prototype.trim (ASCII fragment). -/
def isJsWs (c : Char) : Bool :=
  c = ' ' || c = '\t' || c = '\n' || c = '\r' || c = '\x0b' || c = '\x0c'

/-- JavaScript String.prototype.trim on a character list. -/
def trimChars (l : List Char) : List Char :=
  ((l.dropWhile isJsWs).reverse.dropWhile isJsWs).reverse

/-- Prepend a character to the first segment of a split result, keeping the
remaining segments; used to build leftmost-greedy splits. -/
def consHead (a : Char) : List (List Char) → List (List Char)
  | [] => [[a]]
  | s :: ss => (a :: s) :: ss

/-- JavaScript buffer.split("\n\n"): leftmost, non-overlapping split on the
blank-line delimiter, keeping empty segments.  This is the delimiter scan of
_processSseStream (line 219 of the source). -/
def splitNN : List Char → List (List Char)
  | [] => [[]]
  | [a] => [[a]]
  | a :: b :: rest =>
    if a = '\n' && b = '\n' then [] :: splitNN rest
    else consHead a (splitNN (b :: rest))

/-- JavaScript eventText.split("\n"): split on single newlines, keeping empty
segments. -/
def splitLines : List Char → List (List Char)
  | [] => [[]]
  | a :: rest =>
    if a = '\n' then [] :: splitLines rest
    else consHead a (splitLines rest)

/-- JavaScript dataLines.join("\n"). -/
def joinNL : List (List Char) → List Char
  | [] => []
  | [l] => l
  | l :: ls => l ++ '\n' :: joinNL ls

/-- JavaScript line.startsWith(p). -/
def startsWithChars (p l : List Char) : Bool :=
  l.take p.length = p

/-! ## A model of the host JSON value space and of JSON.parse.
JSON.parse is an ECMAScript built-in (an external collaborator of the code
under verification); it is modelled here for the fragment the repository
exercises: whitespace, null, booleans, integer numerals, strings with the
simple escapes, arrays and objects.  Inputs outside this fragment (fractions,
exponents, unicode escapes) make the model parser fail where the host would
succeed; every theorem below either evaluates the parser on concrete inputs
inside the fragment or takes its result as a hypothesis. -/

/-- JavaScript values produced by JSON.parse (integer-numeral fragment). -/
inductive JsValue where
  | null
  | bool (b : Bool)
  | num (n : Int)
  | str (s : String)
  | arr (elems : List JsValue)
  | obj (fields : List (String × JsValue))

/-- JavaScript truthiness of a value (NaN is outside the modelled fragment). -/
def JsValue.truthy : JsValue → Bool
  | .null => false
  | .bool b => b
  | .num n => n != 0
  | .str s => s != ""
  | .arr _ => true
  | .obj _ => true

/-- JSON whitespace. -/
def isJsonWs (c : Char) : Bool :=
  c = ' ' || c = '\t' || c = '\n' || c = '\r'

/-- Skip JSON whitespace. -/
def skipWs (l : List Char) : List Char :=
  l.dropWhile isJsonWs

/-- Decode one simple JSON string escape character. -/
def unescape (c : Char) : Option Char :=
  if c = '"' then some '"'
  else if c = '\\' then some '\\'
  else if c = '/' then some '/'
  else if c = 'n' then some '\n'
  else if c = 't' then some '\t'
  else if c = 'r' then some '\r'
  else if c = 'b' then some '\x08'
  else if c = 'f' then some '\x0c'
  else none

/-- Parse the body of a JSON string after the opening quote; returns the
decoded characters and the rest of the input after the closing quote. -/
def parseStrChars : List Char → Option (List Char × List Char)
  | [] => none
  | a :: rest =>
    if a = '"' then some ([], rest)
    else if a = '\\' then
      match rest with
      | [] => none
      | e :: rest2 =>
        match unescape e, parseStrChars rest2 with
        | some c, some (s, r) => some (c :: s, r)
        | _, _ => none
    else
      match parseStrChars rest with
      | some (s, r) => some (a :: s, r)
      | none => none

/-- Fold a digit run into a numeral value together with the remaining input. -/
def parseNatNum : Nat → List Char → Nat × List Char
  | acc, [] => (acc, [])
  | acc, a :: rest =>
    if a.isDigit then parseNatNum (acc * 10 + (a.toNat - 48)) rest
    else (acc, a :: rest)

mutual

/-- Recursive-descent JSON value parser (fuel-indexed so that recursion is
structural and kernel-evaluable). -/
def parseValue : Nat → List Char → Option (JsValue × List Char)
  | 0, _ => none
  | fuel + 1, l =>
    match skipWs l with
    | [] => none
    | a :: rest =>
      if a = '\x7b' then
        match skipWs rest with
        | '\x7d' :: r => some (.obj [], r)
        | r => match parseFields fuel r with
               | some (fs, r2) => some (.obj fs, r2)
               | none => none
      else if a = '[' then
        match skipWs rest with
        | ']' :: r => some (.arr [], r)
        | r => match parseElems fuel r with
               | some (es, r2) => some (.arr es, r2)
               | none => none
      else if a = '"' then
        match parseStrChars rest with
        | some (s, r) => some (.str (String.mk s), r)
        | none => none
      else if a = 't' then
        if rest.take 3 = ['r', 'u', 'e'] then some (.bool true, rest.drop 3) else none
      else if a = 'f' then
        if rest.take 4 = ['a', 'l', 's', 'e'] then some (.bool false, rest.drop 4) else none
      else if a = 'n' then
        if rest.take 3 = ['u', 'l', 'l'] then some (.null, rest.drop 3) else none
      else if a = '-' then
        match rest with
        | d :: _ =>
          if d.isDigit then
            let (n, r) := parseNatNum 0 rest
            match r with
            | '.' :: _ => none
            | 'e' :: _ => none
            | 'E' :: _ => none
            | _ => some (.num (-(n : Int)), r)
          else none
        | [] => none
      else if a.isDigit then
        let (n, r) := parseNatNum 0 (a :: rest)
        match r with
        | '.' :: _ => none
        | 'e' :: _ => none
        | 'E' :: _ => none
        | _ => some (.num (n : Int), r)
      else none

/-- Parse the comma-separated elements of a JSON array up to the closing
bracket. -/
def parseElems : Nat → List Char → Option (List JsValue × List Char)
  | 0, _ => none
  | fuel + 1, l =>
    match parseValue fuel l with
    | none => none
    | some (v, r) =>
      match skipWs r with
      | ',' :: r2 =>
        match parseElems fuel r2 with
        | some (vs, r3) => some (v :: vs, r3)
        | none => none
      | ']' :: r2 => some ([v], r2)
      | _ => none

/-- Parse the comma-separated members of a JSON object up to the closing
brace. -/
def parseFields : Nat → List Char → Option (List (String × JsValue) × List Char)
  | 0, _ => none
  | fuel + 1, l =>
    match skipWs l with
    | '"' :: rest =>
      match parseStrChars rest with
      | none => none
      | some (k, r) =>
        match skipWs r with
        | ':' :: r2 =>
          match parseValue fuel r2 with
          | none => none
          | some (v, r3) =>
            match skipWs r3 with
            | ',' :: r4 =>
              match parseFields fuel r4 with
              | some (fs, r5) => some ((String.mk k, v) :: fs, r5)
              | none => none
            | '\x7d' :: r4 => some ([(String.mk k, v)], r4)
            | _ => none
        | _ => none
    | _ => none

end

/-- JSON.parse on a character list: parse one value and require only
whitespace to remain; any failure corresponds to the host throwing a
SyntaxError. -/
def jsonParse (l : List Char) : Option JsValue :=
  match parseValue (2 * l.length + 2) l with
  | some (v, r) => if skipWs r = [] then some v else none
  | none => none

/-! ## The SSE stream parser (_processSseStream and _processFinalSseEvent). -/

/-- Which of the optional callbacks are registered; the code guards every
invocation with a presence check. -/
structure SseHooks where
  hasOnProgress : Bool
  hasOnSuccess : Bool
  hasOnError : Bool

/-- All three callbacks registered. -/
def allHooks : SseHooks := ⟨true, true, true⟩

/-- Observable callback invocations of the SSE parser. -/
inductive SseAction where
  | progress (data : String)
  | success (v : JsValue)
  | parseErr

/-- A parsed SSE event record: the last event: line sets the type (default
message), data: lines accumulate and are joined with a newline and trimmed. -/
structure SseEventParsed where
  type : List Char
  data : List Char

/-- Per-record line scan of the parser (lines 229-237 of the source): an
event: line replaces the type with its trimmed remainder, a data: line
appends its raw remainder to the data-line list, other lines are ignored. -/
def parseEventLines (lines : List (List Char)) : SseEventParsed :=
  let st := lines.foldl
    (fun (st : List Char × List (List Char)) line =>
      if startsWithChars "event:".data line then (trimChars (line.drop 6), st.2)
      else if startsWithChars "data:".data line then (st.1, st.2 ++ [line.drop 5])
      else st)
    ("message".data, [])
  ⟨st.1, trimChars (joinNL st.2)⟩

/-- The switch on the event type (lines 242-258): progress events invoke
onProgress with the raw data text, done events JSON-parse the data and invoke
onSuccess on success or onError("sse-parse") on failure, any other type is
ignored. -/
def dispatchEvent (h : SseHooks) (ev : SseEventParsed) : List SseAction :=
  if ev.type = "progress".data then
    if h.hasOnProgress then [.progress (String.mk ev.data)] else []
  else if ev.type = "done".data then
    match jsonParse ev.data with
    | some v => if h.hasOnSuccess then [.success v] else []
    | none => if h.hasOnError then [.parseErr] else []
  else []

/-- A complete mid-stream record (lines 221-238): trimmed first; an all-blank
record or one with empty data after trimming is dropped. -/
def midEvent? (seg : List Char) : Option SseEventParsed :=
  let t := trimChars seg
  if t = [] then none
  else
    let ev := parseEventLines (splitLines t)
    if ev.data = [] then none else some ev

/-- The residual buffer after stream end (_processFinalSseEvent, guarded by
eventBuffer.trim() at line 264): the raw, untrimmed buffer is parsed and the
event is dropped only if its data is empty. -/
def finalEvent? (buf : List Char) : Option SseEventParsed :=
  if trimChars buf = [] then none
  else
    let ev := parseEventLines (splitLines buf)
    if ev.data = [] then none else some ev

/-- Dispatch of one optional event. -/
def dispatchOpt (h : SseHooks) : Option SseEventParsed → List SseAction
  | none => []
  | some ev => dispatchEvent h ev

/-- One reader.read() step (lines 214-262): decode and append the chunk,
split the buffer on the blank-line delimiter, dispatch every segment except
the last, and retain the last segment as the new buffer. -/
def feedChunk (h : SseHooks) (st : List Char × List SseAction) (chunk : List Char) :
    List Char × List SseAction :=
  let buf := st.1 ++ chunk
  let segs := splitNN buf
  (segs.getLastD [], st.2 ++ segs.dropLast.flatMap (fun s => dispatchOpt h (midEvent? s)))

/-- _processSseStream on a whole chunk sequence: fold the reads, then process
any residual non-blank buffer as one final event. -/
def processSseStream (h : SseHooks) (chunks : List (List Char)) : List SseAction :=
  let st := chunks.foldl (feedChunk h) ([], [])
  st.2 ++ dispatchOpt h (finalEvent? st.1)

/-- The SSE response body of the specification's concrete test vector. -/
def sseSample : String :=
  "event: progress\ndata: 50\n\n event: done\ndata: \x7b\"status\":\"success\"\x7d\n\n"

/-- The complete-segment dispatches of the parser over an accumulated text. -/
def midsOf (h : SseHooks) (q : List Char) : List SseAction :=
  (splitNN q).dropLast.flatMap (fun s => dispatchOpt h (midEvent? s))


/-! ## The submission controller (_setupFormHandler and executeSubmission).
The fetch transport is an environment parameter: a function from the index of
the network call to its outcome.  Callback invocations, network calls and
cache writes are recorded in an action trace; the per-form closure variables
isProcessing and retryAttempts, and the AbortController WeakMap entry, are an
explicit FormState. -/

/-- A FormData entry value: a plain string field or a File/Blob with a byte
size. -/
inductive PayloadVal where
  | str (s : String)
  | file (name : String) (size : Nat)

/-- A completed fetch Response as the code reads it: the ok flag, the status,
the two headers it consults, the Location header, and the body as the chunk
sequence delivered by body.getReader(). -/
structure HttpResponse where
  ok : Bool
  status : Nat
  contentType : String
  xPartialView : Bool
  location : Option String
  chunks : List String

/-- The whole body text, as read by response.text() / response.json(). -/
def HttpResponse.bodyChars (r : HttpResponse) : List Char :=
  (r.chunks.map String.data).flatten

/-- Outcome of one fetch call: a rejection with a TimeoutError or AbortError
name, any other rejection, or a resolved response. -/
inductive FetchOutcome where
  | timeoutErr
  | abortErr
  | netErr (msg : String)
  | resp (r : HttpResponse)

/-- Decoded response data handed to onSuccess. -/
inductive RespData where
  | json (v : JsValue)
  | text (s : String)

/-- JavaScript truthiness of decoded response data. -/
def RespData.truthy : RespData → Bool
  | .json v => v.truthy
  | .text s => s != ""

/-- Observable effects of one submission, in order. -/
inductive Action where
  | fetchCall (withSignal : Bool)
  | nativeSubmit
  | setLoading
  | resetLoading
  | onSuccess (kind : String) (data : RespData)
  | onError (kind : String)
  | onProgressPct (pct : Nat)
  | sse (a : SseAction)
  | cachePut (key : String)
  | cacheEvict (key : String)

/-- The cache option: false, true (indefinite) or a duration in seconds. -/
inductive CacheSetting where
  | off
  | indefinite
  | seconds (n : Nat)

/-- JavaScript truthiness of the cache option (the number 0 is falsy). -/
def CacheSetting.truthy : CacheSetting → Bool
  | .off => false
  | .indefinite => true
  | .seconds n => n != 0

/-- A stored cache value: response kind, decoded data, and expiry timestamp
(none models Infinity for cache: true). -/
structure CacheEntry where
  kind : String
  data : RespData
  expires : Option Nat

/-- The process-wide _responseCache Map, as an association list with unique
keys. -/
abbrev CacheList := List (String × CacheEntry)

/-- Map.prototype.get. -/
def lookupCache : CacheList → String → Option CacheEntry
  | [], _ => none
  | (k, e) :: rest, key => if k = key then some e else lookupCache rest key

/-- Map.prototype.delete. -/
def eraseCache : CacheList → String → CacheList
  | [], _ => []
  | (k, e) :: rest, key =>
    if k = key then eraseCache rest key else (k, e) :: eraseCache rest key

/-- Map.prototype.set (replaces any entry under the same key; lookups cannot
distinguish the entry order from the host map's insertion order). -/
def putCache (c : CacheList) (key : String) (e : CacheEntry) : CacheList :=
  (key, e) :: eraseCache c key

/-- Date.now() < expires, with none as Infinity. -/
def expAfter (now : Nat) : Option Nat → Bool
  | none => true
  | some t => now < t

/-- The effective per-form configuration.  Host-function hooks are modelled
by their presence flag and, for validate and beforeSend, by the value they
return (none means the hook is absent). -/
structure GnexConfig where
  async : Bool := false
  sse : Bool := false
  timeout : Nat := 0
  retryCount : Nat := 0
  cache : CacheSetting := .off
  hasOnProgress : Bool := false
  hasSetLoading : Bool := false
  hasResetLoading : Bool := false
  hasOnSuccess : Bool := false
  hasOnError : Bool := false
  validateResult : Option Bool := none
  beforeSendResult : Option Bool := none

/-- The callback presences seen by the SSE parser. -/
def GnexConfig.sseHooks (cfg : GnexConfig) : SseHooks :=
  ⟨cfg.hasOnProgress, cfg.hasOnSuccess, cfg.hasOnError⟩

/-- The form context: resolved method, action URL, and FormData entries
(after transformData). -/
structure FormModel where
  method : String
  action : String
  payload : List (String × PayloadVal)

/-- formElement.method with the POST fallback. -/
def requestMethod (f : FormModel) : String :=
  if f.method = "" then "POST" else f.method

/-- FormData.prototype.hasFiles from the source: some value is a File or
Blob. -/
def hasFilesB (payload : List (String × PayloadVal)) : Bool :=
  payload.any fun p => match p.2 with | .file _ _ => true | .str _ => false

/-- value.size with the undefined-to-0 fallback of (value.size or 0). -/
def valSize : PayloadVal → Nat
  | .str _ => 0
  | .file _ n => n

/-- The proxy's totalSize reduction over the FormData entries. -/
def totalSizeOf (payload : List (String × PayloadVal)) : Nat :=
  (payload.map fun p => valSize p.2).sum

/-- JSON.stringify string escaping for the quote and backslash (control
characters do not occur in the modelled keys). -/
def jsonEscape (c : Char) : List Char :=
  if c = '"' then ['\\', '"'] else if c = '\\' then ['\\', '\\'] else [c]

/-- JSON.stringify of a string. -/
def quoteStr (s : String) : List Char :=
  '"' :: s.data.flatMap jsonEscape ++ ['"']

/-- JSON.stringify of a FormData value: Files serialise as an empty object. -/
def stringifyVal : PayloadVal → List Char
  | .str s => quoteStr s
  | .file _ _ => "\x7b\x7d".data

/-- Comma-join of serialised items. -/
def joinComma : List (List Char) → List Char
  | [] => []
  | [l] => l
  | l :: ls => l ++ ',' :: joinComma ls

/-- JSON.stringify of one [key, value] entry pair. -/
def stringifyEntry (p : String × PayloadVal) : List Char :=
  '[' :: (quoteStr p.1 ++ ',' :: stringifyVal p.2) ++ [']']

/-- JSON.stringify([...formData.entries()]). -/
def stringifyEntries (ps : List (String × PayloadVal)) : List Char :=
  '[' :: joinComma (ps.map stringifyEntry) ++ [']']

/-- The cache fingerprint of line 113: method, action and serialised entries
joined with colons. -/
def mkCacheKey (f : FormModel) : String :=
  String.mk ((requestMethod f).data ++ ':' :: f.action.data
    ++ ':' :: stringifyEntries f.payload)

/-- Substring test modelling String.prototype.includes. -/
def containsSub (sub l : List Char) : Bool :=
  startsWithChars sub l ||
    match l with
    | [] => false
    | _ :: rest => containsSub sub rest

/-- The guarded onSuccess invocation. -/
def succActs (cfg : GnexConfig) (ty : String) (da : RespData) : List Action :=
  if cfg.hasOnSuccess then [Action.onSuccess ty da] else []

/-- The guarded onError invocation. -/
def errActs (cfg : GnexConfig) (k : String) : List Action :=
  if cfg.hasOnError then [Action.onError k] else []

/-- The guarded resetLoadingState invocation; this is also the observable
part of executeSubmission's finally block. -/
def resetActs (cfg : GnexConfig) : List Action :=
  if cfg.hasResetLoading then [Action.resetLoading] else []

/-- The response classifier of lines 148-160, run after the ok check and the
SSE branch: JSON content type (a parse failure means response.json() threw),
the X-Partial-View header, the 3xx redirect branch, else full HTML text. -/
def classify (r : HttpResponse) : Option (String × RespData) :=
  if startsWithChars "application/json".data r.contentType.data then
    match jsonParse r.bodyChars with
    | some v => some ("json", .json v)
    | none => none
  else if r.xPartialView then some ("x-html", .text (String.mk r.bodyChars))
  else if 300 ≤ r.status && r.status < 400 then
    some ("redirect", .text (r.location.getD "unknown"))
  else some ("full-html", .text (String.mk r.bodyChars))

/-- Cache expiry stamp on write (line 164): now + seconds * 1000, or Infinity
for cache: true. -/
def expiresOf (cfg : GnexConfig) (now : Nat) : Option Nat :=
  match cfg.cache with
  | .seconds n => some (now + n * 1000)
  | _ => none

/-- How one try block ends: a TimeoutError or AbortError rejection, any other
thrown error (rejected fetch, HTTP-status throw of line 137, or a JSON decode
throw), or normal completion with its actions and cache update. -/
inductive AttemptErr where
  | timeoutE
  | abortE
  | thrown

/-- The body of executeSubmission's try block (lines 128-170) for one fetch
outcome. -/
def attemptBody (cfg : GnexConfig) (key : String) (cache : CacheList) (now : Nat) :
    FetchOutcome → Except AttemptErr (List Action × CacheList)
  | .timeoutErr => .error .timeoutE
  | .abortErr => .error .abortE
  | .netErr _ => .error .thrown
  | .resp r =>
    if r.ok = false then .error .thrown
    else if cfg.sse && containsSub "text/event-stream".data r.contentType.data then
      .ok ((processSseStream cfg.sseHooks (r.chunks.map String.data)).map Action.sse, cache)
    else
      match classify r with
      | none => .error .thrown
      | some (ty, da) =>
        if !cfg.sse && ty != "" && da.truthy then
          if cfg.cache.truthy then
            .ok (Action.cachePut key :: succActs cfg ty da,
              putCache cache key ⟨ty, da, expiresOf cfg now⟩)
          else .ok (succActs cfg ty da, cache)
        else .ok ([], cache)

/-- Result of executeSubmission: its trace, the next fetch index, the final
retryAttempts counter, and the cache. -/
structure ExecResult where
  trace : List Action
  nextIdx : Nat
  attempts : Nat
  cache : CacheList

/-- executeSubmission (lines 127-192) with explicit recursion fuel; each
level runs one fetch, dispatches by the outcome, recurses while
retryAttempts < retryCount on a thrown error, and always appends its
finally-block actions. -/
def execFuel (cfg : GnexConfig) (key : String) (transport : Nat → FetchOutcome) (now : Nat) :
    Nat → Nat → Nat → CacheList → ExecResult
  | 0, idx, attempts, cache => ⟨[], idx, attempts, cache⟩
  | fuel + 1, idx, attempts, cache =>
    match attemptBody cfg key cache now (transport idx) with
    | .ok (acts, cache') =>
      ⟨Action.fetchCall true :: acts ++ resetActs cfg, idx + 1, attempts, cache'⟩
    | .error .timeoutE =>
      ⟨Action.fetchCall true :: errActs cfg "timeout" ++ resetActs cfg, idx + 1, attempts, cache⟩
    | .error .abortE =>
      ⟨Action.fetchCall true :: errActs cfg "aborted" ++ resetActs cfg, idx + 1, attempts, cache⟩
    | .error .thrown =>
      if attempts < cfg.retryCount then
        let r := execFuel cfg key transport now fuel (idx + 1) (attempts + 1) cache
        ⟨Action.fetchCall true :: r.trace ++ resetActs cfg, r.nextIdx, r.attempts, r.cache⟩
      else
        ⟨Action.fetchCall true :: errActs cfg "request" ++ resetActs cfg, idx + 1, attempts, cache⟩

/-- executeSubmission with the fuel fixed by the retry budget, which bounds
the recursion depth of the source function. -/
def executeSubmission (cfg : GnexConfig) (key : String) (transport : Nat → FetchOutcome)
    (now idx attempts : Nat) (cache : CacheList) : ExecResult :=
  execFuel cfg key transport now (cfg.retryCount - attempts + 1) idx attempts cache

/-- Math.round(u / t * 100) for nonnegative operands: floor of the half-up
rounding, as (200u + t) / 2t in integer division. -/
def jsRound100 (u t : Nat) : Nat := (200 * u + t) / (2 * t)

/-- The uploadedBytes accumulator: running totals of the chunk lengths. -/
def runningTotals (acc : Nat) : List Nat → List Nat
  | [] => []
  | a :: rest => (acc + a) :: runningTotals (acc + a) rest

/-- The percentages reported by the proxy reader loop (lines 331-338), one
per chunk. -/
def proxyPercents (t : Nat) (lens : List Nat) : List Nat :=
  (runningTotals 0 lens).map fun u => min 100 (jsRound100 u t)

/-- The per-form closure state plus the AbortController registry entry. -/
structure FormState where
  isProcessing : Bool
  retryAttempts : Nat
  abortRegistered : Bool

/-- Result of one submit event: trace, final state, final cache, and the next
fetch index. -/
structure SubmitResult where
  trace : List Action
  state : FormState
  cache : CacheList
  nextIdx : Nat

/-- _handleProgressTracking (lines 323-348): skip the proxy entirely when the
computed total size is zero; otherwise issue the proxy fetch with the signal
detached, report a percentage per chunk of the proxied response body, then
run executeSubmission, which issues its own, second fetch with the
submission's signal.  A rejected proxy fetch is an unhandled rejection: no
further code of the submission runs, so the state is left unsettled. -/
def handleProgressTracking (cfg : GnexConfig) (form : FormModel) (key : String)
    (transport : Nat → FetchOutcome) (idx attempts : Nat) (cache : CacheList)
    (now : Nat) : SubmitResult :=
  let total := totalSizeOf form.payload
  if total = 0 then
    let e := executeSubmission cfg key transport now idx attempts cache
    ⟨e.trace, ⟨false, e.attempts, false⟩, e.cache, e.nextIdx⟩
  else
    match transport idx with
    | .resp r =>
      let e := executeSubmission cfg key transport now (idx + 1) attempts cache
      ⟨Action.fetchCall false
          :: (proxyPercents total (r.chunks.map String.length)).map Action.onProgressPct
          ++ e.trace,
        ⟨false, e.attempts, false⟩, e.cache, e.nextIdx⟩
    | _ => ⟨[Action.fetchCall false], ⟨true, attempts, true⟩, cache, idx + 1⟩

/-- The post-cache-check dispatch of lines 194-198: the proxy runs only when
onProgress is registered, the payload has files, and SSE mode is off. -/
def afterCache (cfg : GnexConfig) (form : FormModel) (key : String)
    (transport : Nat → FetchOutcome) (idx attempts : Nat) (cache : CacheList)
    (now : Nat) : SubmitResult :=
  if cfg.hasOnProgress && hasFilesB form.payload && !cfg.sse then
    handleProgressTracking cfg form key transport idx attempts cache now
  else
    let e := executeSubmission cfg key transport now idx attempts cache
    ⟨e.trace, ⟨false, e.attempts, false⟩, e.cache, e.nextIdx⟩

/-- Result of the cache consultation of lines 113-125. -/
inductive CacheCheck where
  | hit (e : CacheEntry)
  | expired
  | miss

/-- The cache consultation: only when the cache option is truthy; a present
entry is a hit when now is before its expiry and is otherwise evicted. -/
def cacheCheck (cfg : GnexConfig) (cache : CacheList) (key : String) (now : Nat) :
    CacheCheck :=
  if cfg.cache.truthy then
    match lookupCache cache key with
    | some e => if expAfter now e.expires then .hit e else .expired
    | none => .miss
  else .miss

/-- The submit event listener of _setupFormHandler (lines 61-199): the
isProcessing guard, validation, AbortController registration, the beforeSend
veto, setLoadingState, the synchronous branch, the cache consultation, and
the dispatch to the proxy or to executeSubmission. -/
def handleSubmit (cfg : GnexConfig) (form : FormModel) (transport : Nat → FetchOutcome)
    (idx : Nat) (st : FormState) (cache : CacheList) (now : Nat) : SubmitResult :=
  if st.isProcessing then ⟨[], st, cache, idx⟩
  else if cfg.validateResult = some false then
    ⟨[], ⟨false, st.retryAttempts, st.abortRegistered⟩, cache, idx⟩
  else if cfg.beforeSendResult = some false then
    ⟨resetActs cfg, ⟨false, st.retryAttempts, true⟩, cache, idx⟩
  else
    let lacts := if cfg.hasSetLoading then [Action.setLoading] else []
    if cfg.async = false then
      ⟨lacts ++ [Action.nativeSubmit], ⟨true, st.retryAttempts, true⟩, cache, idx⟩
    else
      let key := mkCacheKey form
      match cacheCheck cfg cache key now with
      | .hit e =>
        ⟨lacts ++ succActs cfg e.kind e.data ++ resetActs cfg,
          ⟨false, st.retryAttempts, true⟩, cache, idx⟩
      | .expired =>
        let res := afterCache cfg form key transport idx st.retryAttempts
          (eraseCache cache key) now
        ⟨lacts ++ Action.cacheEvict key :: res.trace, res.state, res.cache, res.nextIdx⟩
      | .miss =>
        let res := afterCache cfg form key transport idx st.retryAttempts cache now
        ⟨lacts ++ res.trace, res.state, res.cache, res.nextIdx⟩

/-- Predicate selecting network calls in a trace. -/
def isFetch : Action → Bool
  | .fetchCall _ => true
  | _ => false

/-- Predicate selecting onSuccess invocations (SSE ones included). -/
def isSucc : Action → Bool
  | .onSuccess _ _ => true
  | .sse (.success _) => true
  | _ => false

/-- Predicate selecting onError invocations of a given kind. -/
def isErrKind (k : String) : Action → Bool
  | .onError k2 => k2 = k
  | _ => false

/-- Predicate selecting proxy progress percentages. -/
def isPct : Action → Bool
  | .onProgressPct _ => true
  | _ => false

/-- Predicate selecting cache writes. -/
def isCachePut : Action → Bool
  | .cachePut _ => true
  | _ => false

/-- Predicate selecting onError invocations of any kind. -/
def isErr : Action → Bool
  | .onError _ => true
  | .sse .parseErr => true
  | _ => false

/-- Number of network calls in a trace. -/
def fetchCount (tr : List Action) : Nat := tr.countP isFetch

/-- Number of onSuccess invocations in a trace. -/
def succCount (tr : List Action) : Nat := tr.countP isSucc

/-- Number of onError invocations in a trace. -/
def errCount (tr : List Action) : Nat := tr.countP isErr

/-- Predicate selecting the terminal SSE dispatches: a done event's onSuccess
or its sse-parse onError. -/
def isSseTerminal : SseAction → Bool
  | .success _ => true
  | .parseErr => true
  | .progress _ => false

/-- The events a whole stream dispatches: the parsed complete segments of the
concatenated text plus the residual final event. -/
def streamEvents (chunks : List (List Char)) : List SseEventParsed :=
  (splitNN chunks.flatten).dropLast.filterMap midEvent?
    ++ (finalEvent? ((splitNN chunks.flatten).getLastD [])).toList

/-- Events of type done. -/
def isDoneEvent (ev : SseEventParsed) : Bool := ev.type = "done".data

/-! ## Concrete fixtures used by the claim theorems. -/

/-- A JSON success body. -/
def goodBody : String := "\x7b\"status\":\"success\"\x7d"

/-- The decoded JSON success value. -/
def goodVal : JsValue := .obj [("status", .str "success")]

/-- A resolved JSON response. -/
def goodResp : HttpResponse :=
  ⟨true, 200, "application/json", false, none, [goodBody]⟩

/-- An async configuration with the success, error and reset hooks. -/
def cfgBase : GnexConfig :=
  { async := true, hasOnSuccess := true, hasOnError := true, hasResetLoading := true }

/-- cfgBase with a retry budget. -/
def cfgRetry (n : Nat) : GnexConfig := { cfgBase with retryCount := n }

/-- A plain form with one text field. -/
def form0 : FormModel := ⟨"POST", "/submit", [("test", .str "value")]⟩

/-- A form with one 7-byte file. -/
def formFile : FormModel := ⟨"POST", "/upload", [("f", .file "a.txt" 7)]⟩

/-- The quiescent per-form state right after setup. -/
def st0 : FormState := ⟨false, 0, false⟩

/-- A transport failing on the first n calls and resolving goodResp after. -/
def trN (n : Nat) : Nat → FetchOutcome :=
  fun i => if i < n then .netErr "fail" else .resp goodResp

/-- A transport alternating failure and success, so that each submission sees
one failure and then a success. -/
def trAlt : Nat → FetchOutcome :=
  fun i => if i % 2 = 0 then .netErr "fail" else .resp goodResp

/-- A 302 redirect response carrying a Location header; under the fetch
standard ok is exactly status in the 2xx range, so ok is false here. -/
def resp302 : HttpResponse :=
  ⟨false, 302, "", false, some "/next", []⟩

/-- The constant 302 transport. -/
def tr302 : Nat → FetchOutcome := fun _ => .resp resp302

/-- A response whose body the proxy reads in chunks of 3 and 2 bytes. -/
def proxResp : HttpResponse :=
  ⟨true, 200, "", false, none, ["abc", "de"]⟩

/-- Transport for the proxy run: the proxy fetch gets proxResp, the
classification fetch gets goodResp. -/
def trProx : Nat → FetchOutcome :=
  fun i => if i = 0 then .resp proxResp else .resp goodResp

/-- An ok JSON response whose body decodes to the falsy value 0. -/
def respZero : HttpResponse :=
  ⟨true, 200, "application/json", false, none, ["0"]⟩

/-- An SSE body with two done events. -/
def doubleDone : String :=
  "event: done\ndata: 1\n\nevent: done\ndata: 2\n\n"

/-! ## Lemmas: the SSE splitter is streaming-compatible. -/

theorem consHead_ne_nil (a : Char) (l : List (List Char)) : consHead a l ≠ [] := by
  cases l <;> simp [consHead]

theorem splitNN_ne_nil (l : List Char) : splitNN l ≠ [] := by
  induction l using splitNN.induct with
  | case1 => simp [splitNN]
  | case2 => simp [splitNN]
  | case3 a b rest h ih => simp [splitNN, h]
  | case4 a b rest h ih => simp only [splitNN, if_neg h]; exact consHead_ne_nil _ _

theorem splitNN_eq_single {x : List Char} {y : List Char} (h : splitNN x = [y]) : x = y := by
  induction x using splitNN.induct generalizing y with
  | case1 =>
    simp only [splitNN] at h
    simp at h
    exact h.symm
  | case2 a =>
    simp only [splitNN] at h
    simp at h
    exact h
  | case3 a b rest hc ih =>
    rw [splitNN, if_pos hc] at h
    cases h' : splitNN rest with
    | nil => exact absurd h' (splitNN_ne_nil rest)
    | cons s ss => rw [h'] at h; simp at h
  | case4 a b rest hc ih =>
    rw [splitNN, if_neg hc] at h
    cases h' : splitNN (b :: rest) with
    | nil => exact absurd h' (splitNN_ne_nil _)
    | cons s ss =>
      rw [h', consHead] at h
      obtain ⟨h1, h2⟩ := List.cons_eq_cons.mp h
      subst h2
      have := @ih s h'
      simp [← h1, this]

theorem consHead_append (a : Char) (ys : List (List Char)) (X : List (List Char))
    (h : ys ≠ []) : consHead a (ys ++ X) = consHead a ys ++ X := by
  cases ys with
  | nil => exact absurd rfl h
  | cons s ss => simp [consHead]

/-- The blank-line splitter is compatible with stream concatenation: splitting
s ++ t yields the complete segments of s, followed by the split of the
retained last segment of s prepended to t.  This is the reason the incremental
SSE parser is insensitive to chunk boundaries. -/
theorem splitNN_append (s t : List Char) :
    splitNN (s ++ t) =
      (splitNN s).dropLast ++ splitNN ((splitNN s).getLastD [] ++ t) := by
  induction s using splitNN.induct with
  | case1 => simp [splitNN]
  | case2 a => simp [splitNN]
  | case3 a b rest hc ih =>
    have hS : splitNN (a :: b :: rest) = [] :: splitNN rest := by
      rw [splitNN, if_pos hc]
    have hLhs : splitNN ((a :: b :: rest) ++ t) = [] :: splitNN (rest ++ t) := by
      rw [List.cons_append, List.cons_append, splitNN, if_pos hc]
    rw [hLhs, hS, ih]
    cases hL : splitNN rest with
    | nil => exact absurd hL (splitNN_ne_nil rest)
    | cons s0 ss => simp [List.getLastD_cons]
  | case4 a b rest hc ih =>
    have hS : splitNN (a :: b :: rest) = consHead a (splitNN (b :: rest)) := by
      rw [splitNN, if_neg hc]
    have hLhs : splitNN ((a :: b :: rest) ++ t)
        = consHead a (splitNN ((b :: rest) ++ t)) := by
      rw [List.cons_append, List.cons_append, splitNN, if_neg hc]
    rw [hLhs, hS, ih]
    cases hL : splitNN (b :: rest) with
    | nil => exact absurd hL (splitNN_ne_nil _)
    | cons s0 ss =>
      cases ss with
      | nil =>
        have hbr : b :: rest = s0 := splitNN_eq_single hL
        have key : splitNN ((a :: s0) ++ t) = consHead a (splitNN (s0 ++ t)) := by
          rw [← hbr, List.cons_append, List.cons_append, splitNN, if_neg hc]
        show consHead a (List.dropLast [s0] ++ splitNN (List.getLastD [s0] [] ++ t))
            = List.dropLast (consHead a [s0])
              ++ splitNN (List.getLastD (consHead a [s0]) [] ++ t)
        show consHead a ([] ++ splitNN (s0 ++ t)) = [] ++ splitNN ((a :: s0) ++ t)
        rw [List.nil_append, List.nil_append, key]
      | cons s1 ss' =>
        show consHead a (List.dropLast (s0 :: s1 :: ss')
              ++ splitNN (List.getLastD (s0 :: s1 :: ss') [] ++ t))
            = List.dropLast (consHead a (s0 :: s1 :: ss'))
              ++ splitNN (List.getLastD (consHead a (s0 :: s1 :: ss')) [] ++ t)
        simp [consHead, List.getLastD_cons, List.dropLast_cons₂]

theorem getLastD_append_right (A B : List (List Char)) (d : List Char) (h : B ≠ []) :
    (A ++ B).getLastD d = B.getLastD d := by
  cases hB : B.getLast? with
  | none => exact absurd (List.getLast?_eq_none_iff.mp hB) h
  | some x =>
    rw [List.getLastD_eq_getLast?, List.getLastD_eq_getLast?, List.getLast?_append, hB]
    rfl

theorem feedChunk_state (h : SseHooks) (p c : List Char) :
    feedChunk h ((splitNN p).getLastD [], midsOf h p) c
      = ((splitNN (p ++ c)).getLastD [], midsOf h (p ++ c)) := by
  have hsplit := splitNN_append p c
  have hne : splitNN ((splitNN p).getLastD [] ++ c) ≠ [] := splitNN_ne_nil _
  show ((splitNN ((splitNN p).getLastD [] ++ c)).getLastD [],
        midsOf h p ++ (splitNN ((splitNN p).getLastD [] ++ c)).dropLast.flatMap
          (fun s => dispatchOpt h (midEvent? s)))
      = ((splitNN (p ++ c)).getLastD [], midsOf h (p ++ c))
  simp only [midsOf]
  rw [hsplit, getLastD_append_right _ _ _ hne, List.dropLast_append_of_ne_nil _ hne,
    List.flatMap_append]

theorem foldl_feedChunk (h : SseHooks) (cs : List (List Char)) (p : List Char) :
    cs.foldl (feedChunk h) ((splitNN p).getLastD [], midsOf h p)
      = ((splitNN (p ++ cs.flatten)).getLastD [], midsOf h (p ++ cs.flatten)) := by
  induction cs generalizing p with
  | nil => simp
  | cons c cs ih =>
    rw [List.foldl_cons, feedChunk_state, ih, List.flatten_cons, ← List.append_assoc]

/-- The incremental SSE parser computes, for any chunk sequence, exactly the
dispatches of the split of the concatenated text: the complete segments, then
the residual final segment. -/
theorem processSseStream_eq (h : SseHooks) (chunks : List (List Char)) :
    processSseStream h chunks
      = midsOf h chunks.flatten
        ++ dispatchOpt h (finalEvent? ((splitNN chunks.flatten).getLastD [])) := by
  unfold processSseStream
  have h0 : (([] : List Char), ([] : List SseAction))
      = ((splitNN []).getLastD [], midsOf h []) := rfl
  rw [h0, foldl_feedChunk, List.nil_append]

/-! ## Claim theorems. -/

/-- C1: in SSE mode the dispatched events are independent of how the byte
stream is chunked: for every chunking of the sample input, the parser
dispatches exactly one onProgress with "50" and one onSuccess with the JSON
object, in that order. -/
theorem sse_chunking_invariant (chunks : List (List Char))
    (h : chunks.flatten = sseSample.data) :
    processSseStream allHooks chunks
      = [.progress "50", .success (.obj [("status", .str "success")])] := by
  rw [processSseStream_eq, h]
  rfl

/-- Witness for C1: a chunking that splits mid-line and mid-event. -/
theorem sse_chunking_invariant_witness :
    (["event: progress\nda".data, "ta: 50\n\n eve".data,
        "nt: done\ndata: \x7b\"status\":\"success\"\x7d\n\n".data].flatten
      = sseSample.data) ∧
    processSseStream allHooks
        ["event: progress\nda".data, "ta: 50\n\n eve".data,
          "nt: done\ndata: \x7b\"status\":\"success\"\x7d\n\n".data]
      = [.progress "50", .success (.obj [("status", .str "success")])] :=
  ⟨rfl, sse_chunking_invariant _ rfl⟩

/-- C2 counterexample: with retryCount = 1, a first submission whose
transport fails once then succeeds consumes the retry budget (two fetches,
one onSuccess); the counter is never reset, so a second submission against a
transport that again fails exactly once and then would succeed performs no
retry: one fetch, no onSuccess, one onError. -/
theorem retry_counter_not_reset_cex :
    fetchCount (handleSubmit (cfgRetry 1) form0 trAlt 0 st0 [] 0).trace = 2 ∧
    succCount (handleSubmit (cfgRetry 1) form0 trAlt 0 st0 [] 0).trace = 1 ∧
    (handleSubmit (cfgRetry 1) form0 trAlt 0 st0 [] 0).state.retryAttempts = 1 ∧
    fetchCount (handleSubmit (cfgRetry 1) form0 trAlt
      (handleSubmit (cfgRetry 1) form0 trAlt 0 st0 [] 0).nextIdx
      (handleSubmit (cfgRetry 1) form0 trAlt 0 st0 [] 0).state
      (handleSubmit (cfgRetry 1) form0 trAlt 0 st0 [] 0).cache 0).trace = 1 ∧
    succCount (handleSubmit (cfgRetry 1) form0 trAlt
      (handleSubmit (cfgRetry 1) form0 trAlt 0 st0 [] 0).nextIdx
      (handleSubmit (cfgRetry 1) form0 trAlt 0 st0 [] 0).state
      (handleSubmit (cfgRetry 1) form0 trAlt 0 st0 [] 0).cache 0).trace = 0 ∧
    errCount (handleSubmit (cfgRetry 1) form0 trAlt
      (handleSubmit (cfgRetry 1) form0 trAlt 0 st0 [] 0).nextIdx
      (handleSubmit (cfgRetry 1) form0 trAlt 0 st0 [] 0).state
      (handleSubmit (cfgRetry 1) form0 trAlt 0 st0 [] 0).cache 0).trace = 1 :=
  ⟨rfl, rfl, rfl, rfl, rfl, rfl⟩

/-- C4 counterexample: a beforeSend veto exits with the AbortController entry
still registered, and the synchronous-submit exit leaves isProcessing set,
the entry registered, and never invokes resetLoadingState. -/
theorem settle_paths_cex :
    (handleSubmit { cfgBase with beforeSendResult := some false }
        form0 (trN 0) 0 st0 [] 0).state.abortRegistered = true ∧
    (handleSubmit { cfgBase with beforeSendResult := some false }
        form0 (trN 0) 0 st0 [] 0).state.isProcessing = false ∧
    (handleSubmit { cfgBase with async := false }
        form0 (trN 0) 0 st0 [] 0).state.isProcessing = true ∧
    (handleSubmit { cfgBase with async := false }
        form0 (trN 0) 0 st0 [] 0).state.abortRegistered = true ∧
    (handleSubmit { cfgBase with async := false }
        form0 (trN 0) 0 st0 [] 0).trace.countP
      (fun a => a matches Action.resetLoading) = 0 :=
  ⟨rfl, rfl, rfl, rfl, rfl⟩

/-- C5: a submit event arriving while isProcessing is set is suppressed
entirely: no action of any kind is emitted and all state is unchanged. -/
theorem inflight_guard_suppresses (cfg : GnexConfig) (form : FormModel)
    (transport : Nat → FetchOutcome) (idx : Nat) (st : FormState)
    (cache : CacheList) (now : Nat) (h : st.isProcessing = true) :
    handleSubmit cfg form transport idx st cache now = ⟨[], st, cache, idx⟩ := by
  unfold handleSubmit
  rw [h]
  rfl

/-- Witness for C5: a concrete suppressed submission. -/
theorem inflight_guard_suppresses_witness :
    (FormState.mk true 0 true).isProcessing = true ∧
    handleSubmit cfgBase form0 (trN 0) 0 ⟨true, 0, true⟩ [] 0
      = ⟨[], ⟨true, 0, true⟩, [], 0⟩ :=
  ⟨rfl, inflight_guard_suppresses cfgBase form0 (trN 0) 0 ⟨true, 0, true⟩ [] 0 rfl⟩

/-- C6 evaluation at the failing input: a 302 response (not ok under the
fetch standard) never reaches the redirect classification branch; the attempt
throws before classifying and settles through onError("request"), with no
onSuccess. -/
theorem redirect_status_errors_eval :
    (handleSubmit cfgBase form0 tr302 0 st0 [] 0).trace
      = [Action.fetchCall true, Action.onError "request", Action.resetLoading] ∧
    succCount (handleSubmit cfgBase form0 tr302 0 st0 [] 0).trace = 0 :=
  ⟨rfl, rfl⟩

/-- C7 counterexample: an SSE stream with two done events dispatches two
terminal outcomes within one attempt. -/
theorem sse_multiple_terminal_cex :
    (processSseStream allHooks [doubleDone.data]).countP isSseTerminal = 2 :=
  rfl

/-- C8 counterexample: with the upload-progress proxy active, one submission
issues two network calls, not one: the proxy fetch and then
executeSubmission's own classification fetch. -/
theorem proxy_two_fetches_cex :
    fetchCount (handleSubmit { cfgBase with hasOnProgress := true }
      formFile trProx 0 st0 [] 0).trace = 2 :=
  rfl

/-- C9 counterexample: percentages measure response-body bytes against the
request payload size, so the reported sequence for a 7-byte total and a
5-byte response ends at 71, not 100, although the stream is exhausted; for a
5-byte total and an 8-byte response it reaches 100 before exhaustion. -/
theorem proxy_percent_endpoint_cex :
    proxyPercents 7 [3, 2] = [43, 71] ∧
    (proxyPercents 7 [3, 2]).getLastD 0 ≠ 100 ∧
    proxyPercents 5 [5, 3] = [100, 100] :=
  ⟨rfl, by decide, rfl⟩

theorem countP_resetActs (cfg : GnexConfig) (p : Action → Bool)
    (hp : p Action.resetLoading = false) : (resetActs cfg).countP p = 0 := by
  cases h : cfg.hasResetLoading <;> simp [resetActs, h, hp]

theorem exec_fuel_succ (cfg : GnexConfig) (attempts : Nat) :
    ∃ f, cfg.retryCount - attempts + 1 = f + 1 :=
  ⟨cfg.retryCount - attempts, rfl⟩

/-- C3: an async submission with a truthy cache option and a non-expired
entry under the unchanged fingerprint makes no network call and still invokes
onSuccess with the cached kind and data; an expired entry found on read is
evicted. -/
theorem cache_hit_no_network (cfg : GnexConfig) (form : FormModel)
    (transport : Nat → FetchOutcome) (idx : Nat) (st : FormState)
    (cache : CacheList) (now : Nat) (e : CacheEntry)
    (hasync : cfg.async = true) (hproc : st.isProcessing = false)
    (hval : cfg.validateResult ≠ some false)
    (hbs : cfg.beforeSendResult ≠ some false)
    (hcache : cfg.cache.truthy = true)
    (hlook : lookupCache cache (mkCacheKey form) = some e)
    (hsucc : cfg.hasOnSuccess = true) :
    (expAfter now e.expires = true →
      fetchCount (handleSubmit cfg form transport idx st cache now).trace = 0 ∧
      Action.onSuccess e.kind e.data
        ∈ (handleSubmit cfg form transport idx st cache now).trace) ∧
    (expAfter now e.expires = false →
      Action.cacheEvict (mkCacheKey form)
        ∈ (handleSubmit cfg form transport idx st cache now).trace) := by
  unfold handleSubmit
  rw [hproc, if_neg (by simp), if_neg hval, if_neg hbs, hasync]
  simp only [Bool.false_eq_true, Bool.true_eq_false, if_false]
  unfold cacheCheck
  rw [hcache, hlook]
  simp only [if_true]
  cases hexp : expAfter now e.expires with
  | true =>
    simp only [if_true]
    refine ⟨fun _ => ⟨?_, ?_⟩, fun hcon => by simp at hcon⟩
    · unfold fetchCount
      rw [List.countP_append, List.countP_append, countP_resetActs _ _ rfl]
      cases hl : cfg.hasSetLoading <;> simp [succActs, hsucc, isFetch, hl]
    · simp [succActs, hsucc]
  | false =>
    simp only [Bool.false_eq_true, if_false]
    refine ⟨fun hcon => by simp at hcon, fun _ => ?_⟩
    simp

/-- Witness for C3: a second submission served from a fresh indefinite cache
entry, and an expired entry evicted on read. -/
theorem cache_hit_no_network_witness :
    (expAfter 5 (none : Option Nat) = true →
      fetchCount (handleSubmit { cfgBase with cache := .indefinite } form0 (trN 0) 1 st0
        [(mkCacheKey form0, ⟨"json", .json goodVal, none⟩)] 5).trace = 0 ∧
      Action.onSuccess "json" (.json goodVal)
        ∈ (handleSubmit { cfgBase with cache := .indefinite } form0 (trN 0) 1 st0
          [(mkCacheKey form0, ⟨"json", .json goodVal, none⟩)] 5).trace) ∧
    (expAfter 5 (none : Option Nat) = false →
      Action.cacheEvict (mkCacheKey form0)
        ∈ (handleSubmit { cfgBase with cache := .indefinite } form0 (trN 0) 1 st0
          [(mkCacheKey form0, ⟨"json", .json goodVal, none⟩)] 5).trace) :=
  cache_hit_no_network { cfgBase with cache := .indefinite } form0 (trN 0) 1 st0
    [(mkCacheKey form0, ⟨"json", .json goodVal, none⟩)] 5
    ⟨"json", .json goodVal, none⟩ rfl rfl (by decide) (by decide) rfl rfl rfl

/-- C10: a completed ok async non-SSE response whose decoded data is falsy
settles silently: no onSuccess, no onError, no cache write, and the cache is
unchanged, because the dispatch guard requires the classified type and the
decoded data to be truthy. -/
theorem falsy_data_silent (cfg : GnexConfig) (key : String)
    (transport : Nat → FetchOutcome) (now idx attempts : Nat) (cache : CacheList)
    (r : HttpResponse) (ty : String) (da : RespData)
    (htr : transport idx = .resp r) (hok : r.ok = true) (hsse : cfg.sse = false)
    (hcls : classify r = some (ty, da)) (hfalsy : da.truthy = false) :
    succCount (executeSubmission cfg key transport now idx attempts cache).trace = 0 ∧
    errCount (executeSubmission cfg key transport now idx attempts cache).trace = 0 ∧
    (executeSubmission cfg key transport now idx attempts cache).trace.countP isCachePut = 0 ∧
    (executeSubmission cfg key transport now idx attempts cache).cache = cache := by
  have hstep : attemptBody cfg key cache now (transport idx) = .ok ([], cache) := by
    rw [htr]
    simp only [attemptBody]
    rw [hok, hsse]
    simp [hcls, hfalsy]
  obtain ⟨f, hf⟩ := exec_fuel_succ cfg attempts
  unfold executeSubmission
  rw [hf]
  simp only [execFuel, hstep]
  refine ⟨?_, ?_, ?_, ?_⟩ <;>
    simp [succCount, errCount, List.countP_cons, List.countP_append,
      countP_resetActs, isSucc, isErr, isCachePut]

theorem resetLoading_mem_execFuel (cfg : GnexConfig) (key : String)
    (transport : Nat → FetchOutcome) (now f idx attempts : Nat) (cache : CacheList)
    (h : cfg.hasResetLoading = true) :
    Action.resetLoading ∈ (execFuel cfg key transport now (f + 1) idx attempts cache).trace := by
  have hmem : Action.resetLoading ∈ resetActs cfg := by simp [resetActs, h]
  cases hA : attemptBody cfg key cache now (transport idx) with
  | ok p =>
    obtain ⟨acts, cache'⟩ := p
    simp only [execFuel, hA]
    simp [hmem]
  | error e =>
    cases e with
    | timeoutE => simp only [execFuel, hA]; simp [hmem]
    | abortE => simp only [execFuel, hA]; simp [hmem]
    | thrown =>
      simp only [execFuel, hA]
      split <;> simp [hmem]

theorem resetLoading_mem_executeSubmission (cfg : GnexConfig) (key : String)
    (transport : Nat → FetchOutcome) (now idx attempts : Nat) (cache : CacheList)
    (h : cfg.hasResetLoading = true) :
    Action.resetLoading
      ∈ (executeSubmission cfg key transport now idx attempts cache).trace := by
  obtain ⟨f, hf⟩ := exec_fuel_succ cfg attempts
  unfold executeSubmission
  rw [hf]
  exact resetLoading_mem_execFuel cfg key transport now f idx attempts cache h

theorem execFuel_head (cfg : GnexConfig) (key : String)
    (transport : Nat → FetchOutcome) (now f idx attempts : Nat) (cache : CacheList) :
    (execFuel cfg key transport now (f + 1) idx attempts cache).trace.head?
      = some (Action.fetchCall true) := by
  cases hA : attemptBody cfg key cache now (transport idx) with
  | ok p =>
    obtain ⟨acts, cache'⟩ := p
    simp [execFuel, hA]
  | error e =>
    cases e with
    | timeoutE => simp [execFuel, hA]
    | abortE => simp [execFuel, hA]
    | thrown =>
      simp only [execFuel, hA]
      split <;> simp

/-- C4 counterexamples establish that the veto, cache-hit and synchronous
exits do not release everything; this amended theorem gives the paths that
do: every submission that reaches executeSubmission (async, validation
passed, no veto, cache not consulted as a hit, progress proxy not active)
settles completely: isProcessing cleared, the AbortRegistry entry removed,
and resetLoadingState invoked when present. -/
theorem settle_via_executeSubmission (cfg : GnexConfig) (form : FormModel)
    (transport : Nat → FetchOutcome) (idx : Nat) (st : FormState)
    (cache : CacheList) (now : Nat)
    (hasync : cfg.async = true) (hproc : st.isProcessing = false)
    (hval : cfg.validateResult ≠ some false)
    (hbs : cfg.beforeSendResult ≠ some false)
    (hcache : cfg.cache.truthy = false)
    (hprog : cfg.hasOnProgress = false)
    (hreset : cfg.hasResetLoading = true) :
    (handleSubmit cfg form transport idx st cache now).state.isProcessing = false ∧
    (handleSubmit cfg form transport idx st cache now).state.abortRegistered = false ∧
    Action.resetLoading ∈ (handleSubmit cfg form transport idx st cache now).trace := by
  unfold handleSubmit
  rw [hproc, if_neg (by simp), if_neg hval, if_neg hbs, hasync]
  simp only [Bool.false_eq_true, Bool.true_eq_false, if_false]
  unfold cacheCheck
  rw [hcache]
  simp only [Bool.false_eq_true, if_false]
  unfold afterCache
  rw [hprog]
  simp only [Bool.false_and, Bool.false_eq_true, if_false]
  have hm := resetLoading_mem_executeSubmission cfg (mkCacheKey form) transport now idx
    st.retryAttempts cache hreset
  refine ⟨by trivial, by trivial, ?_⟩
  simp [List.mem_append, hm]

/-- Witness for the C4 amended theorem: a concrete async run settles. -/
theorem settle_via_executeSubmission_witness :
    (handleSubmit cfgBase form0 (trN 0) 0 st0 [] 0).state.isProcessing = false ∧
    (handleSubmit cfgBase form0 (trN 0) 0 st0 [] 0).state.abortRegistered = false ∧
    Action.resetLoading ∈ (handleSubmit cfgBase form0 (trN 0) 0 st0 [] 0).trace :=
  settle_via_executeSubmission cfgBase form0 (trN 0) 0 st0 [] 0
    rfl rfl (by decide) (by decide) rfl rfl rfl

theorem execFuel_thrown_step (cfg : GnexConfig) (key : String)
    (transport : Nat → FetchOutcome) (now f idx attempts : Nat) (cache : CacheList)
    (hA : attemptBody cfg key cache now (transport idx) = .error .thrown)
    (hlt : attempts < cfg.retryCount) :
    execFuel cfg key transport now (f + 1) idx attempts cache
      = ⟨Action.fetchCall true
          :: (execFuel cfg key transport now f (idx + 1) (attempts + 1) cache).trace
          ++ resetActs cfg,
        (execFuel cfg key transport now f (idx + 1) (attempts + 1) cache).nextIdx,
        (execFuel cfg key transport now f (idx + 1) (attempts + 1) cache).attempts,
        (execFuel cfg key transport now f (idx + 1) (attempts + 1) cache).cache⟩ := by
  simp only [execFuel, hA, if_pos hlt]

theorem execFuel_ok_step (cfg : GnexConfig) (key : String)
    (transport : Nat → FetchOutcome) (now f idx attempts : Nat) (cache : CacheList)
    (acts : List Action) (cache' : CacheList)
    (hA : attemptBody cfg key cache now (transport idx) = .ok (acts, cache')) :
    execFuel cfg key transport now (f + 1) idx attempts cache
      = ⟨Action.fetchCall true :: acts ++ resetActs cfg, idx + 1, attempts, cache'⟩ := by
  simp only [execFuel, hA]

theorem execFuel_final_step (cfg : GnexConfig) (key : String)
    (transport : Nat → FetchOutcome) (now f idx attempts : Nat) (cache : CacheList)
    (hA : attemptBody cfg key cache now (transport idx) = .error .thrown)
    (hge : ¬ attempts < cfg.retryCount) :
    execFuel cfg key transport now (f + 1) idx attempts cache
      = ⟨Action.fetchCall true :: errActs cfg "request" ++ resetActs cfg,
        idx + 1, attempts, cache⟩ := by
  simp only [execFuel, hA, if_neg hge]

theorem execFuel_retry_counts (N : Nat) (key : String) (now : Nat) :
    ∀ fuel a cache, fuel = N + 1 - a → a ≤ N →
      fetchCount (execFuel (cfgRetry N) key (trN N) now fuel a a cache).trace = N - a + 1 ∧
      succCount (execFuel (cfgRetry N) key (trN N) now fuel a a cache).trace = 1 := by
  intro fuel
  induction fuel with
  | zero => intro a cache h1 h2; omega
  | succ f ih =>
    intro a cache h1 h2
    by_cases ha : a < N
    · have hstep : attemptBody (cfgRetry N) key cache now (trN N a) = .error .thrown := by
        have htr : trN N a = .netErr "fail" := by simp [trN, ha]
        rw [htr]
        rfl
      rw [execFuel_thrown_step (cfgRetry N) key (trN N) now f a a cache hstep ha]
      dsimp only
      obtain ⟨ihf, ihs⟩ := ih (a + 1) cache (by omega) (by omega)
      have hraF : (resetActs (cfgRetry N)).countP isFetch = 0 := countP_resetActs _ _ rfl
      have hraS : (resetActs (cfgRetry N)).countP isSucc = 0 := countP_resetActs _ _ rfl
      constructor
      · unfold fetchCount at ihf ⊢
        simp [List.countP_cons, List.countP_append, ihf, hraF, isFetch]
        omega
      · unfold succCount at ihs ⊢
        simp [List.countP_cons, List.countP_append, ihs, hraS, isSucc]
    · have hstep : attemptBody (cfgRetry N) key cache now (trN N a)
          = .ok ([Action.onSuccess "json" (.json goodVal)], cache) := by
        have htr : trN N a = .resp goodResp := by simp [trN, ha]
        rw [htr]
        rfl
      rw [execFuel_ok_step (cfgRetry N) key (trN N) now f a a cache _ _ hstep]
      dsimp only
      have hraF : (resetActs (cfgRetry N)).countP isFetch = 0 := countP_resetActs _ _ rfl
      have hraS : (resetActs (cfgRetry N)).countP isSucc = 0 := countP_resetActs _ _ rfl
      constructor
      · unfold fetchCount
        simp [List.countP_cons, List.countP_append, hraF, isFetch]
        omega
      · unfold succCount
        simp [List.countP_cons, List.countP_append, hraS, isSucc]

/-- C2 amended: the retry counter starts at 0 at setup time and is never
reset; for a submission that begins with the counter at 0 (in particular the
first), retryCount = N against a transport failing exactly N times then
succeeding yields exactly N + 1 network attempts and exactly one onSuccess. -/
theorem retry_budget_first_submission (N : Nat) :
    fetchCount (handleSubmit (cfgRetry N) form0 (trN N) 0 st0 [] 0).trace = N + 1 ∧
    succCount (handleSubmit (cfgRetry N) form0 (trN N) 0 st0 [] 0).trace = 1 := by
  have h := execFuel_retry_counts N (mkCacheKey form0) 0 (N + 1) 0 [] (by omega)
    (Nat.zero_le N)
  show fetchCount (execFuel (cfgRetry N) (mkCacheKey form0) (trN N) 0 (N + 1) 0 0 []).trace
      = N + 1 ∧
    succCount (execFuel (cfgRetry N) (mkCacheKey form0) (trN N) 0 (N + 1) 0 0 []).trace = 1
  simpa using h

/-- C8 amended: when the proxy is active on a resolved response with positive
total size, the attempt consists of the proxy fetch issued without the abort
signal, the progress percentages from the proxied response body, and then the
trace of executeSubmission starting at the next transport index — which opens
with a second network call carrying the signal; the proxy's response is
discarded rather than re-exposed. -/
theorem proxy_then_second_fetch (cfg : GnexConfig) (form : FormModel)
    (transport : Nat → FetchOutcome) (idx : Nat) (st : FormState)
    (cache : CacheList) (now : Nat) (r : HttpResponse)
    (hasync : cfg.async = true) (hproc : st.isProcessing = false)
    (hval : cfg.validateResult ≠ some false)
    (hbs : cfg.beforeSendResult ≠ some false)
    (hcache : cfg.cache.truthy = false)
    (hprog : cfg.hasOnProgress = true) (hfiles : hasFilesB form.payload = true)
    (hsse : cfg.sse = false) (htotal : totalSizeOf form.payload ≠ 0)
    (htr : transport idx = .resp r) :
    (handleSubmit cfg form transport idx st cache now).trace
      = (if cfg.hasSetLoading then [Action.setLoading] else [])
        ++ Action.fetchCall false
          :: (proxyPercents (totalSizeOf form.payload)
              (r.chunks.map String.length)).map Action.onProgressPct
        ++ (executeSubmission cfg (mkCacheKey form) transport now (idx + 1)
            st.retryAttempts cache).trace ∧
    (executeSubmission cfg (mkCacheKey form) transport now (idx + 1)
        st.retryAttempts cache).trace.head? = some (Action.fetchCall true) := by
  constructor
  · unfold handleSubmit
    rw [hproc, if_neg (by simp), if_neg hval, if_neg hbs, hasync]
    simp only [Bool.false_eq_true, Bool.true_eq_false, if_false]
    unfold cacheCheck
    rw [hcache]
    simp only [Bool.false_eq_true, if_false]
    unfold afterCache
    rw [hprog, hfiles, hsse]
    simp only [Bool.and_self, Bool.not_false, Bool.and_true, if_true]
    unfold handleProgressTracking
    rw [if_neg htotal, htr]
    dsimp only
    simp
  · obtain ⟨f, hf⟩ := exec_fuel_succ cfg st.retryAttempts
    unfold executeSubmission
    rw [hf]
    exact execFuel_head cfg (mkCacheKey form) transport now f (idx + 1)
      st.retryAttempts cache

/-- Witness for the C8 amended theorem: the concrete proxy run. -/
theorem proxy_then_second_fetch_witness :
    (handleSubmit { cfgBase with hasOnProgress := true } formFile trProx 0 st0 [] 0).trace
      = (if ({ cfgBase with hasOnProgress := true } : GnexConfig).hasSetLoading
          then [Action.setLoading] else [])
        ++ Action.fetchCall false
          :: (proxyPercents (totalSizeOf formFile.payload)
              (proxResp.chunks.map String.length)).map Action.onProgressPct
        ++ (executeSubmission { cfgBase with hasOnProgress := true } (mkCacheKey formFile)
            trProx 0 1 0 []).trace ∧
    (executeSubmission { cfgBase with hasOnProgress := true } (mkCacheKey formFile)
        trProx 0 1 0 []).trace.head? = some (Action.fetchCall true) :=
  proxy_then_second_fetch { cfgBase with hasOnProgress := true } formFile trProx 0 st0
    [] 0 proxResp rfl rfl (by decide) (by decide) rfl rfl rfl rfl (by decide) rfl

theorem dispatch_terminal_count (ev : SseEventParsed) :
    (dispatchEvent allHooks ev).countP isSseTerminal
      = if isDoneEvent ev then 1 else 0 := by
  unfold dispatchEvent isDoneEvent allHooks
  by_cases h1 : ev.type = "progress".data
  · rw [if_pos h1]
    have h2 : ¬ ev.type = "done".data := by rw [h1]; decide
    simp [isSseTerminal, h2]
  · rw [if_neg h1]
    by_cases h2 : ev.type = "done".data
    · rw [if_pos h2]
      cases jsonParse ev.data <;> simp [isSseTerminal, h2]
    · rw [if_neg h2]
      simp [isSseTerminal, h2]

theorem flatMap_terminal_count (segs : List (List Char)) :
    (segs.flatMap fun s => dispatchOpt allHooks (midEvent? s)).countP isSseTerminal
      = (segs.filterMap midEvent?).countP isDoneEvent := by
  induction segs with
  | nil => rfl
  | cons s ss ih =>
    rw [List.flatMap_cons, List.countP_append, ih, List.filterMap_cons]
    cases h : midEvent? s with
    | none => simp [dispatchOpt]
    | some ev =>
      simp only [dispatchOpt, List.countP_cons]
      rw [dispatch_terminal_count]
      cases hd : isDoneEvent ev
      · simp [hd]
      · simp [hd]
        omega

theorem final_terminal_count (b : List Char) :
    (dispatchOpt allHooks (finalEvent? b)).countP isSseTerminal
      = ((finalEvent? b).toList).countP isDoneEvent := by
  cases h : finalEvent? b with
  | none => rfl
  | some ev =>
    simp only [dispatchOpt, Option.toList, List.countP_cons, List.countP_nil]
    rw [dispatch_terminal_count]
    cases hd : isDoneEvent ev <;> simp [hd]

/-- C7 amended: each parsed event of type done (with nonempty data)
dispatches exactly one terminal callback — onSuccess on JSON parse success,
onError otherwise — so the number of terminal dispatches of a whole stream
equals its number of done events, which can exceed one. -/
theorem sse_terminal_count (chunks : List (List Char)) :
    (processSseStream allHooks chunks).countP isSseTerminal
      = (streamEvents chunks).countP isDoneEvent := by
  rw [processSseStream_eq]
  unfold streamEvents midsOf
  rw [List.countP_append, List.countP_append, flatMap_terminal_count,
    final_terminal_count]

theorem runningTotals_ge (acc : Nat) (lens : List Nat) :
    ∀ x ∈ runningTotals acc lens, acc ≤ x := by
  induction lens generalizing acc with
  | nil => intro x hx; simp [runningTotals] at hx
  | cons a rest ih =>
    intro x hx
    simp only [runningTotals, List.mem_cons] at hx
    rcases hx with h | h
    · omega
    · have := ih (acc + a) x h
      omega

theorem runningTotals_pairwise (acc : Nat) (lens : List Nat) :
    List.Pairwise (· ≤ ·) (runningTotals acc lens) := by
  induction lens generalizing acc with
  | nil => simp [runningTotals]
  | cons a rest ih =>
    simp only [runningTotals]
    refine List.Pairwise.cons ?_ (ih (acc + a))
    intro x hx
    have := runningTotals_ge (acc + a) rest x hx
    omega

theorem jsRound100_mono {u v : Nat} (t : Nat) (h : u ≤ v) :
    jsRound100 u t ≤ jsRound100 v t :=
  Nat.div_le_div_right (by omega)

theorem countP_errActs (cfg : GnexConfig) (k : String) (p : Action → Bool)
    (hp : p (Action.onError k) = false) : (errActs cfg k).countP p = 0 := by
  cases h : cfg.hasOnError <;> simp [errActs, h, hp]

theorem attemptBody_no_pct (cfg : GnexConfig) (key : String) (cache : CacheList)
    (now : Nat) (o : FetchOutcome) (acts : List Action) (cache' : CacheList)
    (h : attemptBody cfg key cache now o = .ok (acts, cache')) :
    acts.countP isPct = 0 := by
  cases o with
  | timeoutErr => exact absurd h (by simp [attemptBody])
  | abortErr => exact absurd h (by simp [attemptBody])
  | netErr m => exact absurd h (by simp [attemptBody])
  | resp r =>
    simp only [attemptBody] at h
    by_cases h1 : r.ok = false
    · rw [if_pos h1] at h
      exact absurd h (by simp)
    · rw [if_neg h1] at h
      by_cases h2 : (cfg.sse && containsSub "text/event-stream".data r.contentType.data)
          = true
      · rw [if_pos h2] at h
        simp only [Except.ok.injEq, Prod.mk.injEq] at h
        obtain ⟨ha, _⟩ := h
        rw [← ha, List.countP_map]
        simp [Function.comp_def, isPct]
      · rw [if_neg h2] at h
        cases h3 : classify r with
        | none =>
          rw [h3] at h
          exact absurd h (by simp)
        | some p2 =>
          obtain ⟨ty, da⟩ := p2
          rw [h3] at h
          dsimp only at h
          by_cases h4 : (!cfg.sse && ty != "" && da.truthy) = true
          · rw [if_pos h4] at h
            by_cases h5 : cfg.cache.truthy = true
            · rw [if_pos h5] at h
              simp only [Except.ok.injEq, Prod.mk.injEq] at h
              obtain ⟨ha, _⟩ := h
              rw [← ha]
              cases hOS : cfg.hasOnSuccess <;>
                simp [succActs, hOS, isPct, List.countP_cons]
            · rw [if_neg h5] at h
              simp only [Except.ok.injEq, Prod.mk.injEq] at h
              obtain ⟨ha, _⟩ := h
              rw [← ha]
              cases hOS : cfg.hasOnSuccess <;>
                simp [succActs, hOS, isPct, List.countP_cons]
          · rw [if_neg h4] at h
            simp only [Except.ok.injEq, Prod.mk.injEq] at h
            obtain ⟨ha, _⟩ := h
            rw [← ha]
            rfl

theorem execFuel_no_pct (cfg : GnexConfig) (key : String)
    (transport : Nat → FetchOutcome) (now : Nat) :
    ∀ fuel idx attempts cache,
      (execFuel cfg key transport now fuel idx attempts cache).trace.countP isPct = 0 := by
  intro fuel
  induction fuel with
  | zero => intro idx attempts cache; rfl
  | succ f ih =>
    intro idx attempts cache
    have hR : (resetActs cfg).countP isPct = 0 := countP_resetActs _ _ rfl
    cases hA : attemptBody cfg key cache now (transport idx) with
    | ok p =>
      obtain ⟨acts, cache'⟩ := p
      rw [execFuel_ok_step _ _ _ _ _ _ _ _ _ _ hA]
      dsimp only
      have h1 := attemptBody_no_pct cfg key cache now (transport idx) acts cache' hA
      simp [List.countP_cons, List.countP_append, h1, hR, isPct]
    | error e =>
      cases e with
      | timeoutE =>
        simp only [execFuel, hA]
        have h3 : (errActs cfg "timeout").countP isPct = 0 := countP_errActs _ _ _ rfl
        simp [List.countP_cons, List.countP_append, hR, h3, isPct]
      | abortE =>
        simp only [execFuel, hA]
        have h3 : (errActs cfg "aborted").countP isPct = 0 := countP_errActs _ _ _ rfl
        simp [List.countP_cons, List.countP_append, hR, h3, isPct]
      | thrown =>
        by_cases hlt : attempts < cfg.retryCount
        · rw [execFuel_thrown_step _ _ _ _ _ _ _ _ hA hlt]
          dsimp only
          simp [List.countP_cons, List.countP_append, ih, hR, isPct]
        · rw [execFuel_final_step _ _ _ _ _ _ _ _ hA hlt]
          dsimp only
          have h3 : (errActs cfg "request").countP isPct = 0 := countP_errActs _ _ _ rfl
          simp [List.countP_cons, List.countP_append, hR, h3, isPct]

/-- C9 amended: each reported percentage is min(100, round(bytes/total*100))
over the running byte totals, the sequence is monotonically non-decreasing,
and when the computed total size is 0 the proxy is skipped and no percentage
is reported; the sequence need not end at 100 (it tracks response-body
bytes, not the request total), as the counterexample shows. -/
theorem proxy_percent_props (t : Nat) (lens : List Nat) (cfg : GnexConfig)
    (form : FormModel) (key : String) (transport : Nat → FetchOutcome)
    (idx attempts : Nat) (cache : CacheList) (now : Nat)
    (hzero : totalSizeOf form.payload = 0) :
    proxyPercents t lens
      = (runningTotals 0 lens).map (fun u => min 100 (jsRound100 u t)) ∧
    List.Pairwise (· ≤ ·) (proxyPercents t lens) ∧
    (handleProgressTracking cfg form key transport idx attempts cache now).trace.countP
      isPct = 0 := by
  refine ⟨rfl, ?_, ?_⟩
  · exact (runningTotals_pairwise 0 lens).map _
      (fun a b hab => min_le_min (le_refl 100) (jsRound100_mono t hab))
  · unfold handleProgressTracking
    simp only [hzero, if_true]
    unfold executeSubmission
    exact execFuel_no_pct cfg key transport now _ idx attempts cache

/-- Witness for the C9 amended theorem: concrete lens and a fileless form. -/
theorem proxy_percent_props_witness :
    (totalSizeOf form0.payload = 0) ∧
    (proxyPercents 7 [3, 2]
        = (runningTotals 0 [3, 2]).map (fun u => min 100 (jsRound100 u 7)) ∧
      List.Pairwise (· ≤ ·) (proxyPercents 7 [3, 2]) ∧
      (handleProgressTracking cfgBase form0 "k" (trN 0) 0 0 [] 0).trace.countP
        isPct = 0) :=
  ⟨rfl, proxy_percent_props 7 [3, 2] cfgBase form0 "k" (trN 0) 0 0 [] 0 rfl⟩

/-- Witness for C10: a JSON body decoding to the falsy number 0 produces no
callback and no cache write. -/
theorem falsy_data_silent_witness :
    (respZero.ok = true ∧ cfgBase.sse = false ∧
      classify respZero = some ("json", .json (.num 0)) ∧
      (RespData.json (.num 0)).truthy = false) ∧
    (succCount (executeSubmission cfgBase "k" (fun _ => .resp respZero) 0 0 0 []).trace = 0 ∧
      errCount (executeSubmission cfgBase "k" (fun _ => .resp respZero) 0 0 0 []).trace = 0 ∧
      (executeSubmission cfgBase "k" (fun _ => .resp respZero) 0 0 0 []).trace.countP
        isCachePut = 0 ∧
      (executeSubmission cfgBase "k" (fun _ => .resp respZero) 0 0 0 []).cache = []) :=
  ⟨⟨rfl, rfl, rfl, rfl⟩,
    falsy_data_silent cfgBase "k" (fun _ => .resp respZero) 0 0 0 [] respZero
      "json" (.json (.num 0)) rfl rfl rfl rfl rfl⟩

end Gnex
